import Mathlib

/-!
Shallow embedding of the live-attendance backend (src/http/index.ts and
src/http/types.ts) and proofs of the spec's claims about it.

The in-memory attendance map is a JS object `Record<string, string>`; we
model it as an association list with unique keys, where assignment
`attendance[studentId] = status` replaces the value in place when the key
exists and appends otherwise, matching JS object key semantics.  JS truthy
tests on lookups (`!attendance[id]`, `status || default`) treat both a
missing key and the empty string as false; the embedding keeps that
distinction explicit.
-/

namespace LiveAttendance

/-- The roles carried in the JWT payload (src/http/types.ts, enum Role). -/
inductive Role where
  | teacher
  | student
deriving DecidableEq, Repr

/-- The identity bound to a WebSocket connection on handshake
(`ws.user = { userId, role }`, src/http/index.ts line 52). -/
structure WsUser where
  userId : String
  role : Role
deriving DecidableEq, Repr

/-- The in-memory attendance map of the active session
(`attendance: Record<string, string>`). -/
abbrev AttMap := List (String × String)

/-- JS property read `m[k]` on the attendance object: first binding of `k`,
`none` when the key is absent (JS `undefined`). -/
def lookup (m : AttMap) (k : String) : Option String :=
  (m.find? (fun p => p.1 == k)).map Prod.snd

/-- JS assignment `m[k] = v` on an object: replace the binding in place
when the key exists (a JS object holds each key once), append a new
binding otherwise. -/
def upsert (m : AttMap) (k v : String) : AttMap :=
  match m with
  | [] => [(k, v)]
  | p :: rest => if p.1 == k then (k, v) :: rest else p :: upsert rest k v

/-- JS truthiness of `m[k]`: the key is bound and its value is a non-empty
string.  This is the test `!activeSession.attendance[studentIdStr]`
(negated) at src/http/index.ts line 174. -/
def truthyAt (m : AttMap) (k : String) : Bool :=
  match lookup m k with
  | some v => !(v == "")
  | none => false

/-- JS `studentStatus || "not yet updated"` (src/http/index.ts line 148):
a missing or empty-string status falls back to the default. -/
def statusOrDefault (st : Option String) : String :=
  match st with
  | some v => if v == "" then "not yet updated" else v
  | none => "not yet updated"

/-- `Object.values(attendance)` — the list of stored statuses. -/
def values (m : AttMap) : List String := m.map Prod.snd

/-- `attendanceValues.filter((s) => s === "present").length`
(src/http/index.ts line 113). -/
def countPresent (m : AttMap) : Nat :=
  ((values m).filter (fun s => s == "present")).length

/-- `attendanceValues.filter((s) => s === "absent").length`
(src/http/index.ts line 116). -/
def countAbsent (m : AttMap) : Nat :=
  ((values m).filter (fun s => s == "absent")).length

/-- The active session slot (`activeSession`, src/http/index.ts line 19). -/
structure Session where
  classId : String
  startedAt : String
  attendance : AttMap
deriving DecidableEq, Repr

/-- A class document from the persistent store (src/http/model.ts,
classSchema), with object ids rendered as strings. -/
structure ClassRoom where
  id : String
  className : String
  teacherId : String
  studentIds : List String
deriving DecidableEq, Repr

/-- `ClassModel.findById(id)` over an in-memory view of the class
collection. -/
def findClass (classes : List ClassRoom) (id : String) : Option ClassRoom :=
  classes.find? (fun c => c.id == id)

/-- One durable attendance record as built for `AttendanceModel.insertMany`
(src/http/index.ts lines 181-187). -/
structure AttendanceRecord where
  classId : String
  studentId : String
  status : String
deriving DecidableEq, Repr

/-- The structured content of a message sent over the socket: either an
error envelope, an event echo, a summary, a self-status answer, or the
finalize confirmation. -/
inductive Payload where
  | error (message : String)
  | marked (studentId status : String)
  | summary (present absent total : Nat)
  | myStatus (status : String)
  | doneMsg (message : String) (present absent total : Nat)
deriving DecidableEq, Repr

/-- A delivery decision of the handler: unicast back to the sender
(`ws.send` / `sendError`) or broadcast to every registered connection. -/
inductive Output where
  | toSender (p : Payload)
  | toAll (p : Payload)
deriving DecidableEq, Repr

/-- A parsed inbound envelope, after `JSON.parse`, dispatched on
`message.event` (src/http/index.ts line 72). -/
inductive WsMessage where
  | attendanceMarked (studentId status : String)
  | todaySummary
  | myAttendance
  | done
  | unknown (event : String)
deriving DecidableEq, Repr

/-- The for-loop of the DONE case (src/http/index.ts lines 172-177): for
each enrolled student id whose map entry is falsy (missing or empty
string), set it to "absent". -/
def backfill (m : AttMap) (roster : List String) : AttMap :=
  match roster with
  | [] => m
  | sid :: rest =>
      backfill (if truthyAt m sid then m else upsert m sid "absent") rest

/-- What one inbound WebSocket message changes: the session slot after the
handler, the messages it sends, and the records it inserts durably. -/
structure HandlerResult where
  session : Option Session
  outputs : List Output
  writes : List AttendanceRecord
deriving DecidableEq, Repr

/-- The `ws.on("message", ...)` switch (src/http/index.ts lines 72-221),
one case per event.  Role is checked before the active-session check in
every case, exactly as in the source. -/
def handleMessage (classes : List ClassRoom) (user : WsUser)
    (session : Option Session) (msg : WsMessage) : HandlerResult :=
  match msg with
  | .attendanceMarked studentId status =>
      if user.role ≠ Role.teacher then
        ⟨session, [.toSender (.error "Forbidden, teacher event only")], []⟩
      else
        match session with
        | none =>
            ⟨none, [.toSender (.error "No active attendance session")], []⟩
        | some s =>
            let s' : Session :=
              { s with attendance := upsert s.attendance studentId status }
            ⟨some s', [.toAll (.marked studentId status)], []⟩
  | .todaySummary =>
      if user.role ≠ Role.teacher then
        ⟨session, [.toSender (.error "Forbidden, teacher event only")], []⟩
      else
        match session with
        | none =>
            ⟨none, [.toSender (.error "No active attendance session")], []⟩
        | some s =>
            ⟨some s,
             [.toAll (.summary (countPresent s.attendance)
                (countAbsent s.attendance) (values s.attendance).length)],
             []⟩
  | .myAttendance =>
      if user.role ≠ Role.student then
        ⟨session, [.toSender (.error "Forbidden, student event only")], []⟩
      else
        match session with
        | none =>
            ⟨none, [.toSender (.error "No active attendance session")], []⟩
        | some s =>
            ⟨some s,
             [.toSender
                (.myStatus (statusOrDefault (lookup s.attendance user.userId)))],
             []⟩
  | .done =>
      if user.role ≠ Role.teacher then
        ⟨session, [.toSender (.error "Forbidden, teacher event only")], []⟩
      else
        match session with
        | none =>
            ⟨none, [.toSender (.error "No active attendance session")], []⟩
        | some s =>
            let finalMap : AttMap :=
              match findClass classes s.classId with
              | some c => backfill s.attendance c.studentIds
              | none => s.attendance
            let records : List AttendanceRecord :=
              finalMap.map (fun p => ⟨s.classId, p.1, p.2⟩)
            ⟨none,
             [.toAll (.doneMsg "Attendance persisted" (countPresent finalMap)
                (countAbsent finalMap) (values finalMap).length)],
             records⟩
  | .unknown _ =>
      ⟨session, [.toSender (.error "Unknown event")], []⟩

/-- Sequential application of ATTENDANCE_MARKED assignments
(`attendance[studentId] = status` per event, src/http/index.ts line 88). -/
def applyMarks (m : AttMap) (events : List (String × String)) : AttMap :=
  match events with
  | [] => m
  | (sid, st) :: rest => applyMarks (upsert m sid st) rest

/-! ### Realtime fan-out (`allWs` and `broadcast`, src/http/index.ts 35-41)

A registered connection is modelled by its identity plus a flag saying
whether delivery to it succeeds.  In the `ws` library a send on a closed
socket reports its failure through the callback or an `error` event, not a
synchronous exception, so `send` here is total and returns the outcome. -/

/-- A registered WebSocket connection in `allWs`.  `ok` records whether a
delivery to this connection succeeds. -/
structure Conn where
  id : Nat
  ok : Bool
deriving DecidableEq, Repr

/-- One delivery attempt: which connection, the serialized payload handed
to `w.send`, and whether it was delivered. -/
structure Delivery where
  connId : Nat
  payload : String
  delivered : Bool
deriving DecidableEq, Repr

/-- `JSON.stringify` of an outbound envelope (`\x7b` and `\x7d` denote the
literal braces of the JSON text). -/
def serialize (p : Payload) : String :=
  match p with
  | .error m =>
      "\x7b\"event\":\"ERROR\",\"data\":\x7b\"message\":\"" ++ m
        ++ "\"\x7d\x7d"
  | .marked sid st =>
      "\x7b\"event\":\"ATTENDANCE_MARKED\",\"data\":\x7b\"studentId\":\""
        ++ sid ++ "\",\"status\":\"" ++ st ++ "\"\x7d\x7d"
  | .summary p a t =>
      "\x7b\"event\":\"TODAY_SUMMARY\",\"data\":\x7b\"present\":"
        ++ toString p ++ ",\"absent\":" ++ toString a ++ ",\"total\":"
        ++ toString t ++ "\x7d\x7d"
  | .myStatus st =>
      "\x7b\"event\":\"MY_ATTENDANCE\",\"data\":\x7b\"status\":\"" ++ st
        ++ "\"\x7d\x7d"
  | .doneMsg m p a t =>
      "\x7b\"event\":\"DONE\",\"data\":\x7b\"message\":\"" ++ m
        ++ "\",\"present\":" ++ toString p ++ ",\"absent\":" ++ toString a
        ++ ",\"total\":" ++ toString t ++ "\x7d\x7d"

/-- `w.send(payload)`: fire-and-forget delivery to one connection. -/
def send (c : Conn) (payload : String) : Delivery :=
  ⟨c.id, payload, c.ok⟩

/-- `broadcast(message)` (src/http/index.ts lines 38-41): serialize once,
then `allWs.forEach((w) => w.send(payload))`. -/
def broadcast (conns : List Conn) (msg : Payload) : List Delivery :=
  let payload := serialize msg
  conns.map (fun c => send c payload)

/-! ### POST /attendance/start (src/http/index.ts lines 536-583) -/

/-- The HTTP response of the start endpoint, after the auth and
teacher-role middleware have passed. -/
inductive StartResponse where
  | badRequest (error : String)
  | notFound (error : String)
  | forbidden (error : String)
  | ok (classId startedAt : String)
deriving DecidableEq, Repr

/-- The `/attendance/start` handler body: `body` is the parsed
`startAttendanceSchema` result (`none` when the schema rejects), `userId`
the authenticated requester, `now` the value of
`new Date().toISOString()`, and `session` the current `activeSession`.
Returns the new `activeSession` and the response. -/
def startAttendance (classes : List ClassRoom) (userId : String)
    (body : Option String) (now : String) (session : Option Session) :
    Option Session × StartResponse :=
  match body with
  | none => (session, .badRequest "Invalid request schema")
  | some classId =>
      match findClass classes classId with
      | none => (session, .notFound "Class not found")
      | some c =>
          if c.teacherId ≠ userId then
            (session, .forbidden "Forbidden, not class teacher")
          else
            (some ⟨c.id, now, []⟩, .ok c.id now)

/-! ### Basic lemmas about the attendance map -/

/-- The key list of an attendance map. -/
def keys (m : AttMap) : List String := m.map Prod.fst

/-- The roster outcome Finalize actually assigns to an enrolled student:
the previously marked value when it is a non-empty string (JS truthy),
otherwise `"absent"`.  Used to phrase the amended C1. -/
def finalStatus (st : Option String) : String :=
  match st with
  | some v => if v == "" then "absent" else v
  | none => "absent"

/-- The role an event's first guard demands (`none` for an unrecognized
event).  Used to phrase the amended C3. -/
def requiredRole (msg : WsMessage) : Option Role :=
  match msg with
  | .attendanceMarked _ _ => some .teacher
  | .todaySummary => some .teacher
  | .myAttendance => some .student
  | .done => some .teacher
  | .unknown _ => none

/-- The role-violation error text each gated event sends to a sender of
the wrong role (the unrecognized-event answer for the rest).  Used to
phrase the amended C3. -/
def roleError (msg : WsMessage) : String :=
  match msg with
  | .attendanceMarked _ _ => "Forbidden, teacher event only"
  | .todaySummary => "Forbidden, teacher event only"
  | .myAttendance => "Forbidden, student event only"
  | .done => "Forbidden, teacher event only"
  | .unknown _ => "Unknown event"

theorem keys_length (m : AttMap) : (keys m).length = m.length :=
  List.length_map m Prod.fst

theorem lookup_nil (k : String) : lookup ([] : AttMap) k = none := rfl

theorem lookup_cons (p : String × String) (m : AttMap) (k : String) :
    lookup (p :: m) k = if p.1 = k then some p.2 else lookup m k := by
  by_cases h : p.1 = k
  · simp [lookup, List.find?, h]
  · have hb : (p.1 == k) = false := beq_eq_false_iff_ne.mpr h
    simp [lookup, List.find?, hb, h]

theorem upsert_cons (p : String × String) (m : AttMap) (k v : String) :
    upsert (p :: m) k v =
      if p.1 = k then (k, v) :: m else p :: upsert m k v := by
  by_cases h : p.1 = k
  · simp [upsert, h]
  · have hb : (p.1 == k) = false := beq_eq_false_iff_ne.mpr h
    simp [upsert, hb, h]

theorem lookup_upsert (m : AttMap) (k v k' : String) :
    lookup (upsert m k v) k' = if k' = k then some v else lookup m k' := by
  induction m with
  | nil => simp [upsert, lookup_cons, lookup_nil, eq_comm]
  | cons p rest ih =>
      rw [upsert_cons]
      by_cases hpk : p.1 = k
      · rw [if_pos hpk, lookup_cons, lookup_cons]
        by_cases h : k' = k
        · simp [h]
        · have hk : ¬ k = k' := fun hh => h hh.symm
          have hp : ¬ p.1 = k' := by rw [hpk]; exact hk
          simp [hk, h, hp]
      · rw [if_neg hpk, lookup_cons, ih, lookup_cons]
        by_cases h1 : p.1 = k'
        · by_cases h2 : k' = k
          · exact absurd (h1.trans h2) hpk
          · simp [h1, h2]
        · simp [h1]

theorem keys_upsert (m : AttMap) (k v : String) :
    keys (upsert m k v) =
      if k ∈ keys m then keys m else keys m ++ [k] := by
  induction m with
  | nil => simp [upsert, keys]
  | cons p rest ih =>
      rw [upsert_cons]
      by_cases hpk : p.1 = k
      · have hkm : k ∈ keys (p :: rest) := by
          rw [← hpk]
          exact List.mem_cons_self _ _
        rw [if_pos hpk, if_pos hkm]
        simp [keys, hpk]
      · have hne : k ≠ p.1 := fun h => hpk h.symm
        rw [if_neg hpk]
        show p.1 :: keys (upsert rest k v) = _
        rw [ih]
        by_cases hk : k ∈ keys rest
        · rw [if_pos hk, if_pos (show k ∈ keys (p :: rest) from
            List.mem_cons_of_mem _ hk)]
          rfl
        · rw [if_neg hk, if_neg (show k ∉ keys (p :: rest) from by
            intro hc
            rcases List.mem_cons.mp hc with h | h
            · exact hne h
            · exact hk h)]
          rfl

theorem nodup_keys_upsert (m : AttMap) (k v : String)
    (h : (keys m).Nodup) : (keys (upsert m k v)).Nodup := by
  rw [keys_upsert]
  by_cases hk : k ∈ keys m
  · rwa [if_pos hk]
  · rw [if_neg hk]
    simp [List.nodup_append, h, hk]

theorem length_upsert (m : AttMap) (k v : String) :
    (upsert m k v).length =
      if k ∈ keys m then m.length else m.length + 1 := by
  have h := congrArg List.length (keys_upsert m k v)
  rw [keys_length] at h
  by_cases hk : k ∈ keys m
  · rw [if_pos hk] at h
    rw [if_pos hk, h, keys_length]
  · rw [if_neg hk] at h
    rw [if_neg hk, h]
    simp [keys_length]

theorem mem_values_upsert {m : AttMap} {k v w : String}
    (h : w ∈ values (upsert m k v)) : w ∈ values m ∨ w = v := by
  induction m with
  | nil =>
      simp [upsert, values] at h
      exact Or.inr h
  | cons p rest ih =>
      rw [upsert_cons] at h
      by_cases hpk : p.1 = k
      · rw [if_pos hpk] at h
        rcases List.mem_cons.mp h with h | h
        · exact Or.inr h
        · exact Or.inl (List.mem_cons_of_mem _ h)
      · rw [if_neg hpk] at h
        rcases List.mem_cons.mp h with h | h
        · exact Or.inl (h ▸ List.mem_cons_self _ _)
        · rcases ih h with h | h
          · exact Or.inl (List.mem_cons_of_mem _ h)
          · exact Or.inr h

theorem upsert_upsert (m : AttMap) (k a b : String) :
    upsert (upsert m k a) k b = upsert m k b := by
  induction m with
  | nil => simp [upsert]
  | cons p rest ih =>
      by_cases hpk : p.1 = k
      · rw [upsert_cons, if_pos hpk, upsert_cons, if_pos rfl,
          upsert_cons, if_pos hpk]
      · rw [upsert_cons, if_neg hpk, upsert_cons, if_neg hpk, ih,
          upsert_cons, if_neg hpk]

theorem filter_length_one_of_lookup {m : AttMap} {k v : String}
    (hnd : (keys m).Nodup) (h : lookup m k = some v) :
    (m.filter (fun p => p.1 == k)).length = 1 := by
  induction m with
  | nil => simp [lookup_nil] at h
  | cons p rest ih =>
      have hnd' : (keys rest).Nodup := (List.nodup_cons.mp hnd).2
      have hhead : p.1 ∉ keys rest := (List.nodup_cons.mp hnd).1
      rw [lookup_cons] at h
      by_cases hpk : p.1 = k
      · have hrest : rest.filter (fun p => p.1 == k) = [] := by
          apply List.filter_eq_nil_iff.mpr
          intro q hq hb
          have hqk : q.1 = k := by simpa using hb
          have hq1 : q.1 ∈ keys rest := List.mem_map_of_mem Prod.fst hq
          rw [hqk, ← hpk] at hq1
          exact hhead hq1
        simp [List.filter_cons, hpk, hrest]
      · rw [if_neg hpk] at h
        have hb : (p.1 == k) = false := beq_eq_false_iff_ne.mpr hpk
        simp [List.filter_cons, hb, ih hnd' h]

theorem count_present_absent_le (l : List String) :
    (l.filter (fun s => s == "present")).length
      + (l.filter (fun s => s == "absent")).length ≤ l.length := by
  induction l with
  | nil => simp
  | cons x xs ih =>
      by_cases hp : x = "present"
      · simp [List.filter_cons, hp]
        omega
      · by_cases ha : x = "absent"
        · simp [List.filter_cons, ha]
          omega
        · have hbp : (x == "present") = false := beq_eq_false_iff_ne.mpr hp
          have hba : (x == "absent") = false := beq_eq_false_iff_ne.mpr ha
          simp [List.filter_cons, hbp, hba]
          omega

theorem count_present_absent_of_valid (l : List String)
    (h : ∀ v ∈ l, v = "present" ∨ v = "absent") :
    (l.filter (fun s => s == "present")).length
      + (l.filter (fun s => s == "absent")).length = l.length := by
  induction l with
  | nil => simp
  | cons x xs ih =>
      have hx := h x (List.mem_cons_self _ _)
      have hxs := ih (fun v hv => h v (List.mem_cons_of_mem _ hv))
      rcases hx with hx | hx
      · simp [List.filter_cons, hx] at hxs ⊢
        omega
      · simp [List.filter_cons, hx] at hxs ⊢
        omega

theorem count_present_absent_lt_of_bad (l : List String) (w : String)
    (hw : w ∈ l) (hp : w ≠ "present") (ha : w ≠ "absent") :
    (l.filter (fun s => s == "present")).length
      + (l.filter (fun s => s == "absent")).length < l.length := by
  induction l with
  | nil => simp at hw
  | cons x xs ih =>
      rcases List.mem_cons.mp hw with hx | hx
      · subst hx
        have hbp : (w == "present") = false := beq_eq_false_iff_ne.mpr hp
        have hba : (w == "absent") = false := beq_eq_false_iff_ne.mpr ha
        have := count_present_absent_le xs
        simp [List.filter_cons, hbp, hba]
        omega
      · have hlt := ih hx
        by_cases hxp : x = "present"
        · simp [List.filter_cons, hxp] at hlt ⊢
          omega
        · by_cases hxa : x = "absent"
          · simp [List.filter_cons, hxa] at hlt ⊢
            omega
          · have hbp : (x == "present") = false := beq_eq_false_iff_ne.mpr hxp
            have hba : (x == "absent") = false := beq_eq_false_iff_ne.mpr hxa
            simp [List.filter_cons, hbp, hba]
            omega

/-! ### Lemmas about the DONE backfill loop -/

theorem truthyAt_upsert (m : AttMap) (k v k' : String) :
    truthyAt (upsert m k v) k' =
      if k' = k then !(v == "") else truthyAt m k' := by
  by_cases h : k' = k <;> simp [truthyAt, lookup_upsert, h]

theorem lookup_backfill (m : AttMap) (roster : List String) (k : String) :
    lookup (backfill m roster) k =
      if k ∈ roster ∧ truthyAt m k = false then some "absent"
      else lookup m k := by
  induction roster generalizing m with
  | nil => simp [backfill]
  | cons r rest ih =>
      rw [backfill]
      by_cases hr : truthyAt m r
      · rw [if_pos hr, ih]
        by_cases hk : k = r
        · subst hk
          simp [hr]
        · simp [List.mem_cons, hk]
      · rw [if_neg hr, ih]
        rw [Bool.not_eq_true] at hr
        by_cases hk : k = r
        · subst hk
          have ht : truthyAt (upsert m k "absent") k = true := by
            simp [truthyAt_upsert]
          simp [ht, hr, lookup_upsert]
        · have ht : truthyAt (upsert m r "absent") k = truthyAt m k := by
            simp [truthyAt_upsert, hk]
          rw [ht, lookup_upsert]
          simp [List.mem_cons, hk]

theorem keys_backfill_nodup (m : AttMap) (roster : List String)
    (h : (keys m).Nodup) : (keys (backfill m roster)).Nodup := by
  induction roster generalizing m with
  | nil => exact h
  | cons r rest ih =>
      rw [backfill]
      by_cases hr : truthyAt m r
      · rw [if_pos hr]
        exact ih _ h
      · rw [if_neg hr]
        exact ih _ (nodup_keys_upsert _ _ _ h)

theorem mem_values_backfill {m : AttMap} {roster : List String} {w : String}
    (h : w ∈ values (backfill m roster)) : w ∈ values m ∨ w = "absent" := by
  induction roster generalizing m with
  | nil => exact Or.inl h
  | cons r rest ih =>
      rw [backfill] at h
      by_cases hr : truthyAt m r
      · rw [if_pos hr] at h
        exact ih h
      · rw [if_neg hr] at h
        rcases ih h with h' | h'
        · exact mem_values_upsert h'
        · exact Or.inr h'

/-! ### Lemmas about sequences of marks -/

theorem keys_applyMarks_toFinset (m : AttMap)
    (events : List (String × String)) :
    (keys (applyMarks m events)).toFinset =
      (keys m).toFinset ∪ (events.map Prod.fst).toFinset := by
  induction events generalizing m with
  | nil => simp [applyMarks]
  | cons e rest ih =>
      obtain ⟨sid, st⟩ := e
      rw [applyMarks, ih]
      have hk : (keys (upsert m sid st)).toFinset =
          insert sid (keys m).toFinset := by
        rw [keys_upsert]
        by_cases hmem : sid ∈ keys m
        · rw [if_pos hmem]
          exact (Finset.insert_eq_self.mpr (List.mem_toFinset.mpr hmem)).symm
        · rw [if_neg hmem]
          simp [List.toFinset_append, Finset.union_comm,
            Finset.insert_eq]
      rw [hk]
      simp [Finset.insert_union, Finset.union_insert]

theorem nodup_keys_applyMarks (m : AttMap) (events : List (String × String))
    (h : (keys m).Nodup) : (keys (applyMarks m events)).Nodup := by
  induction events generalizing m with
  | nil => exact h
  | cons e rest ih =>
      obtain ⟨sid, st⟩ := e
      rw [applyMarks]
      exact ih _ (nodup_keys_upsert _ _ _ h)

theorem mem_values_applyMarks {m : AttMap} {events : List (String × String)}
    {w : String} (h : w ∈ values (applyMarks m events)) :
    w ∈ values m ∨ ∃ e ∈ events, w = e.2 := by
  induction events generalizing m with
  | nil => exact Or.inl h
  | cons e rest ih =>
      obtain ⟨sid, st⟩ := e
      rw [applyMarks] at h
      rcases ih h with h' | h'
      · rcases mem_values_upsert h' with h'' | h''
        · exact Or.inl h''
        · exact Or.inr ⟨(sid, st), List.mem_cons_self _ _, h''⟩
      · rcases h' with ⟨e, he, hw⟩
        exact Or.inr ⟨e, List.mem_cons_of_mem _ he, hw⟩

theorem mem_of_lookup {m : AttMap} {k v : String}
    (h : lookup m k = some v) : (k, v) ∈ m := by
  induction m with
  | nil => simp [lookup_nil] at h
  | cons p rest ih =>
      rw [lookup_cons] at h
      by_cases hpk : p.1 = k
      · rw [if_pos hpk] at h
        have hv : p.2 = v := Option.some_injective _ h
        have hp : p = (k, v) := by
          rw [← hpk, ← hv]
        exact hp ▸ List.mem_cons_self _ _
      · rw [if_neg hpk] at h
        exact List.mem_cons_of_mem _ (ih h)

theorem mem_values_of_lookup {m : AttMap} {k v : String}
    (h : lookup m k = some v) : v ∈ values m :=
  List.mem_map_of_mem Prod.snd (mem_of_lookup h)

theorem findClass_id {classes : List ClassRoom} {cid : String}
    {c : ClassRoom} (h : findClass classes cid = some c) : c.id = cid := by
  have := List.find?_some h
  simpa using this

/-! ### Claims -/

/-- C4: `broadcast` serializes the message once and hands that same
serialized payload to every currently registered connection, in
registration order; the delivery attempt for any one connection sits
alongside, and does not alter, the attempts for the others, and the call
never raises: it is a total function returning the attempt list. -/
theorem C4_broadcast_fanout (conns : List Conn) (msg : Payload) :
    ((broadcast conns msg).map Delivery.connId = conns.map Conn.id) ∧
    (∀ d ∈ broadcast conns msg, d.payload = serialize msg) ∧
    (∀ pre c post, conns = pre ++ c :: post →
      broadcast conns msg =
        broadcast pre msg ++ send c (serialize msg) :: broadcast post msg) := by
  refine ⟨?_, ?_, ?_⟩
  · simp [broadcast, send]
  · intro d hd
    simp only [broadcast, List.mem_map] at hd
    rcases hd with ⟨c, _, rfl⟩
    rfl
  · rintro pre c post rfl
    simp [broadcast]

/-- C4 witness: the fan-out property at a concrete connection list with a
failing connection in the middle. -/
theorem C4_broadcast_fanout_witness :
    (broadcast [⟨1, true⟩, ⟨2, false⟩, ⟨3, true⟩]
        (.error "x")).map Delivery.connId = [1, 2, 3] ∧
    broadcast [⟨1, true⟩, ⟨2, false⟩, ⟨3, true⟩] (.error "x") =
      broadcast [⟨1, true⟩] (.error "x")
        ++ send ⟨2, false⟩ (serialize (.error "x"))
          :: broadcast [⟨3, true⟩] (.error "x") :=
  ⟨(C4_broadcast_fanout [⟨1, true⟩, ⟨2, false⟩, ⟨3, true⟩] (.error "x")).1,
   (C4_broadcast_fanout [⟨1, true⟩, ⟨2, false⟩, ⟨3, true⟩] (.error "x")).2.2
     [⟨1, true⟩] ⟨2, false⟩ [⟨3, true⟩] rfl⟩

/-- C5: a connection whose bound role is student sending Mark gets the
role-violation error unicast back to itself only; the session slot is
returned unchanged, nothing is broadcast, and nothing is written. -/
theorem C5_student_mark_rejected (classes : List ClassRoom) (u : WsUser)
    (s : Option Session) (sid st : String)
    (hrole : u.role = Role.student) :
    handleMessage classes u s (.attendanceMarked sid st) =
      ⟨s, [.toSender (.error "Forbidden, teacher event only")], []⟩ := by
  simp [handleMessage, hrole]

/-- C5 witness: concrete student connection, active session present. -/
theorem C5_student_mark_rejected_witness :
    (⟨"u1", Role.student⟩ : WsUser).role = Role.student ∧
    handleMessage [] ⟨"u1", Role.student⟩
        (some ⟨"c1", "t0", [("s2", "present")]⟩)
        (.attendanceMarked "s1" "present") =
      ⟨some ⟨"c1", "t0", [("s2", "present")]⟩,
       [.toSender (.error "Forbidden, teacher event only")], []⟩ :=
  ⟨rfl, C5_student_mark_rejected [] ⟨"u1", Role.student⟩
    (some ⟨"c1", "t0", [("s2", "present")]⟩) "s1" "present" rfl⟩

/-- C7: an authorized start by the owning teacher installs a fresh session
with the requested classId, the supplied timestamp, and an empty
attendance map, and answers 200 with that classId and timestamp — for
every prior value of the session slot, including an already-active
session, whose in-memory marks are discarded. -/
theorem C7_start_attendance (classes : List ClassRoom)
    (uid cid now : String) (prior : Option Session) (c : ClassRoom)
    (hfind : findClass classes cid = some c) (hown : c.teacherId = uid) :
    startAttendance classes uid (some cid) now prior =
      (some ⟨cid, now, []⟩, .ok cid now) := by
  have hid : c.id = cid := findClass_id hfind
  simp [startAttendance, hfind, hown, hid]

/-- C7 witness: starting over an already-active session with marks. -/
theorem C7_start_attendance_witness :
    findClass [⟨"c1", "Math", "t1", ["s1"]⟩] "c1" =
      some ⟨"c1", "Math", "t1", ["s1"]⟩ ∧
    (⟨"c1", "Math", "t1", ["s1"]⟩ : ClassRoom).teacherId = "t1" ∧
    startAttendance [⟨"c1", "Math", "t1", ["s1"]⟩] "t1" (some "c1") "now"
        (some ⟨"c9", "old", [("s1", "present")]⟩) =
      (some ⟨"c1", "now", []⟩, .ok "c1" "now") :=
  ⟨by decide, rfl,
   C7_start_attendance [⟨"c1", "Math", "t1", ["s1"]⟩] "t1" "c1" "now"
     (some ⟨"c9", "old", [("s1", "present")]⟩)
     ⟨"c1", "Math", "t1", ["s1"]⟩ (by decide) rfl⟩

/-- C10: the Self-status answer is computed from the attendance map alone,
keyed by the connection's userId, with no enrollment check: the result is
identical for every state of the class collection, enrolled or not, and is
unicast to the requester only. -/
theorem C10_my_attendance_ignores_enrollment
    (classes classes' : List ClassRoom) (u : WsUser) (s : Session)
    (hrole : u.role = Role.student) :
    handleMessage classes u (some s) .myAttendance =
      ⟨some s,
       [.toSender
         (.myStatus (statusOrDefault (lookup s.attendance u.userId)))],
       []⟩ ∧
    handleMessage classes u (some s) .myAttendance =
      handleMessage classes' u (some s) .myAttendance := by
  constructor <;> simp [handleMessage, hrole]

/-- C10 witness: a student not on the session class's roster still gets
the map's answer, identically across two class collections. -/
theorem C10_my_attendance_ignores_enrollment_witness :
    (⟨"outsider", Role.student⟩ : WsUser).role = Role.student ∧
    handleMessage [⟨"c1", "Math", "t1", []⟩] ⟨"outsider", Role.student⟩
        (some ⟨"c1", "t0", [("outsider", "present")]⟩) .myAttendance =
      ⟨some ⟨"c1", "t0", [("outsider", "present")]⟩,
       [.toSender (.myStatus (statusOrDefault
         (lookup [("outsider", "present")] "outsider")))], []⟩ ∧
    handleMessage [⟨"c1", "Math", "t1", []⟩] ⟨"outsider", Role.student⟩
        (some ⟨"c1", "t0", [("outsider", "present")]⟩) .myAttendance =
      handleMessage [] ⟨"outsider", Role.student⟩
        (some ⟨"c1", "t0", [("outsider", "present")]⟩) .myAttendance :=
  ⟨rfl,
   (C10_my_attendance_ignores_enrollment [⟨"c1", "Math", "t1", []⟩] []
     ⟨"outsider", Role.student⟩ ⟨"c1", "t0", [("outsider", "present")]⟩
     rfl).1,
   (C10_my_attendance_ignores_enrollment [⟨"c1", "Math", "t1", []⟩] []
     ⟨"outsider", Role.student⟩ ⟨"c1", "t0", [("outsider", "present")]⟩
     rfl).2⟩

/-- C6: with an active session, a student's Self-status request answers
"not yet updated" before any Mark for that student's userId, and "present"
after a teacher's Mark with status "present" for them; both answers are
unicast to the requester only, with no state change and no write. -/
theorem C6_self_status (classes : List ClassRoom) (stu t : WsUser)
    (s : Session) (hstu : stu.role = Role.student)
    (ht : t.role = Role.teacher)
    (hnone : lookup s.attendance stu.userId = none) :
    handleMessage classes stu (some s) .myAttendance =
      ⟨some s, [.toSender (.myStatus "not yet updated")], []⟩ ∧
    handleMessage classes stu
        ((handleMessage classes t (some s)
          (.attendanceMarked stu.userId "present")).session) .myAttendance =
      ⟨(handleMessage classes t (some s)
          (.attendanceMarked stu.userId "present")).session,
       [.toSender (.myStatus "present")], []⟩ := by
  have h1 : (handleMessage classes t (some s)
      (.attendanceMarked stu.userId "present")).session =
        some { s with attendance := upsert s.attendance stu.userId "present" } := by
    simp [handleMessage, ht]
  constructor
  · simp [handleMessage, hstu, hnone, statusOrDefault]
  · rw [h1]
    simp [handleMessage, hstu, statusOrDefault, lookup_upsert]

/-- C6 witness: a fresh session, one student, mark "present". -/
theorem C6_self_status_witness :
    lookup ([] : AttMap) "s1" = none ∧
    handleMessage [] ⟨"s1", Role.student⟩ (some ⟨"c1", "t0", []⟩)
        .myAttendance =
      ⟨some ⟨"c1", "t0", []⟩, [.toSender (.myStatus "not yet updated")],
       []⟩ ∧
    handleMessage [] ⟨"s1", Role.student⟩
        ((handleMessage [] ⟨"t1", Role.teacher⟩ (some ⟨"c1", "t0", []⟩)
          (.attendanceMarked "s1" "present")).session) .myAttendance =
      ⟨(handleMessage [] ⟨"t1", Role.teacher⟩ (some ⟨"c1", "t0", []⟩)
          (.attendanceMarked "s1" "present")).session,
       [.toSender (.myStatus "present")], []⟩ :=
  ⟨rfl,
   (C6_self_status [] ⟨"s1", Role.student⟩ ⟨"t1", Role.teacher⟩
     ⟨"c1", "t0", []⟩ rfl rfl rfl).1,
   (C6_self_status [] ⟨"s1", Role.student⟩ ⟨"t1", Role.teacher⟩
     ⟨"c1", "t0", []⟩ rfl rfl rfl).2⟩

/-- C8: Mark upserts a single entry: marking student sid with a and then
with b leaves the session exactly as if only the mark with b had
happened (so no record of a is kept, and remarking with the same status is
idempotent); the resulting map binds sid to b, holds exactly one entry for
sid, and every other student's entry is unchanged. -/
theorem C8_mark_upsert (classes : List ClassRoom) (u : WsUser) (s : Session)
    (sid a b sid' : String) (hrole : u.role = Role.teacher)
    (hnd : (keys s.attendance).Nodup) :
    (handleMessage classes u
        ((handleMessage classes u (some s)
          (.attendanceMarked sid a)).session)
        (.attendanceMarked sid b)).session =
      (handleMessage classes u (some s) (.attendanceMarked sid b)).session ∧
    upsert (upsert s.attendance sid a) sid b = upsert s.attendance sid b ∧
    lookup (upsert s.attendance sid b) sid = some b ∧
    ((upsert s.attendance sid b).filter (fun p => p.1 == sid)).length = 1 ∧
    (sid' ≠ sid →
      lookup (upsert s.attendance sid b) sid' = lookup s.attendance sid') := by
  refine ⟨?_, upsert_upsert _ _ _ _, ?_, ?_, ?_⟩
  · simp [handleMessage, hrole, upsert_upsert]
  · rw [lookup_upsert]
    simp
  · exact filter_length_one_of_lookup (nodup_keys_upsert _ _ _ hnd)
      (show lookup (upsert s.attendance sid b) sid = some b by
        rw [lookup_upsert]
        simp)
  · intro hne
    rw [lookup_upsert, if_neg hne]

/-- C8 witness: remark "s1" from "present" to "absent" next to an
untouched "s2". -/
theorem C8_mark_upsert_witness :
    (keys [("s2", "present")]).Nodup ∧
    ("s2" : String) ≠ "s1" ∧
    upsert (upsert [("s2", "present")] "s1" "present") "s1" "absent" =
      upsert [("s2", "present")] "s1" "absent" ∧
    lookup (upsert [("s2", "present")] "s1" "absent") "s1" = some "absent" ∧
    lookup (upsert [("s2", "present")] "s1" "absent") "s2" =
      lookup [("s2", "present")] "s2" :=
  ⟨by decide, by decide,
   (C8_mark_upsert [] ⟨"t1", Role.teacher⟩ ⟨"c1", "t0", [("s2", "present")]⟩
     "s1" "present" "absent" "s2" rfl (by decide)).2.1,
   (C8_mark_upsert [] ⟨"t1", Role.teacher⟩ ⟨"c1", "t0", [("s2", "present")]⟩
     "s1" "present" "absent" "s2" rfl (by decide)).2.2.1,
   (C8_mark_upsert [] ⟨"t1", Role.teacher⟩ ⟨"c1", "t0", [("s2", "present")]⟩
     "s1" "present" "absent" "s2" rfl (by decide)).2.2.2.2 (by decide)⟩

/-- C2: after any sequence of Mark events (statuses drawn from the
attendance-status domain "present"/"absent") applied to a fresh session
map, the TODAY_SUMMARY broadcast carries present, absent and total counted
from that map, total equals the number of distinct students marked, and
present + absent = total. -/
theorem C2_summary_counts (classes : List ClassRoom) (u : WsUser)
    (cid ts : String) (events : List (String × String))
    (hrole : u.role = Role.teacher)
    (hval : ∀ e ∈ events, e.2 = "present" ∨ e.2 = "absent") :
    (handleMessage classes u (some ⟨cid, ts, applyMarks [] events⟩)
        .todaySummary).outputs =
      [.toAll (.summary (countPresent (applyMarks [] events))
        (countAbsent (applyMarks [] events))
        (values (applyMarks [] events)).length)] ∧
    (values (applyMarks [] events)).length =
      (events.map Prod.fst).toFinset.card ∧
    countPresent (applyMarks [] events) + countAbsent (applyMarks [] events)
      = (values (applyMarks [] events)).length := by
  refine ⟨by simp [handleMessage, hrole], ?_, ?_⟩
  · have hnd : (keys (applyMarks [] events)).Nodup :=
      nodup_keys_applyMarks [] events (by simp [keys])
    have hfin := keys_applyMarks_toFinset [] events
    have hempty : (keys ([] : AttMap)).toFinset = ∅ := by simp [keys]
    rw [hempty, Finset.empty_union] at hfin
    calc (values (applyMarks [] events)).length
        = (applyMarks [] events).length := List.length_map _ _
      _ = (keys (applyMarks [] events)).length := (keys_length _).symm
      _ = (keys (applyMarks [] events)).toFinset.card :=
          (List.toFinset_card_of_nodup hnd).symm
      _ = (events.map Prod.fst).toFinset.card := by rw [hfin]
  · have hv : ∀ v ∈ values (applyMarks [] events),
        v = "present" ∨ v = "absent" := by
      intro v hvmem
      rcases mem_values_applyMarks hvmem with h | ⟨e, he, rfl⟩
      · simp [values] at h
      · exact hval e he
    exact count_present_absent_of_valid (values (applyMarks [] events)) hv

/-- C2 witness: three marks on two distinct students, one remark. -/
theorem C2_summary_counts_witness :
    (∀ e ∈ [("a", "present"), ("b", "absent"), ("a", "absent")],
      (e : String × String).2 = "present" ∨ e.2 = "absent") ∧
    (values (applyMarks []
        [("a", "present"), ("b", "absent"), ("a", "absent")])).length =
      ([("a", "present"), ("b", "absent"), ("a", "absent")].map
        Prod.fst).toFinset.card ∧
    countPresent (applyMarks []
        [("a", "present"), ("b", "absent"), ("a", "absent")])
      + countAbsent (applyMarks []
        [("a", "present"), ("b", "absent"), ("a", "absent")])
      = (values (applyMarks []
        [("a", "present"), ("b", "absent"), ("a", "absent")])).length :=
  ⟨by decide,
   (C2_summary_counts [] ⟨"t1", Role.teacher⟩ "c1" "t0"
     [("a", "present"), ("b", "absent"), ("a", "absent")] rfl
     (by decide)).2.1,
   (C2_summary_counts [] ⟨"t1", Role.teacher⟩ "c1" "t0"
     [("a", "present"), ("b", "absent"), ("a", "absent")] rfl
     (by decide)).2.2⟩

/-- C1 as stated fails: student "s1" was previously marked with the
empty-string status (a value present in the map), yet Finalize's falsy
check overwrites it with "absent", so the roster outcome is not the
previously marked value. -/
theorem C1_counterexample :
    lookup [("s1", "")] "s1" = some "" ∧
    (handleMessage [⟨"c1", "Math", "t1", ["s1"]⟩] ⟨"t1", Role.teacher⟩
        (some ⟨"c1", "t0", [("s1", "")]⟩) .done).writes =
      [⟨"c1", "s1", "absent"⟩] ∧
    (⟨"c1", "s1", ""⟩ : AttendanceRecord) ∉
      (handleMessage [⟨"c1", "Math", "t1", ["s1"]⟩] ⟨"t1", Role.teacher⟩
        (some ⟨"c1", "t0", [("s1", "")]⟩) .done).writes := by
  decide

/-- C1 (amended): after Finalize with a fetched roster, every enrolled
student has exactly one status in the resulting map — the previously
marked value when a non-empty one exists, else "absent" (the code's falsy
check treats an empty-string mark as unmarked) — the final broadcast
summary counts that map, the durable writes persist it, and the session
slot is cleared to none. -/
theorem C1_finalize_roster (classes : List ClassRoom) (u : WsUser)
    (s : Session) (c : ClassRoom) (hrole : u.role = Role.teacher)
    (hfind : findClass classes s.classId = some c)
    (hnd : (keys s.attendance).Nodup) :
    (handleMessage classes u (some s) .done).session = none ∧
    (handleMessage classes u (some s) .done).outputs =
      [.toAll (.doneMsg "Attendance persisted"
        (countPresent (backfill s.attendance c.studentIds))
        (countAbsent (backfill s.attendance c.studentIds))
        (values (backfill s.attendance c.studentIds)).length)] ∧
    (handleMessage classes u (some s) .done).writes =
      (backfill s.attendance c.studentIds).map
        (fun p => ⟨s.classId, p.1, p.2⟩) ∧
    ∀ sid ∈ c.studentIds,
      lookup (backfill s.attendance c.studentIds) sid =
        some (finalStatus (lookup s.attendance sid)) ∧
      ((backfill s.attendance c.studentIds).filter
        (fun p => p.1 == sid)).length = 1 := by
  refine ⟨by simp [handleMessage, hrole, hfind],
    by simp [handleMessage, hrole, hfind],
    by simp [handleMessage, hrole, hfind], ?_⟩
  intro sid hsid
  have hl := lookup_backfill s.attendance c.studentIds sid
  have hlk : lookup (backfill s.attendance c.studentIds) sid =
      some (finalStatus (lookup s.attendance sid)) := by
    by_cases ht : truthyAt s.attendance sid
    · rw [hl, if_neg (by simp [ht])]
      cases hb : lookup s.attendance sid with
      | none => simp [truthyAt, hb] at ht
      | some v =>
          have hv : ¬ v = "" := by
            simpa [truthyAt, hb] using ht
          simp [finalStatus, hv]
    · rw [hl, if_pos ⟨hsid, by simpa using ht⟩]
      cases hb : lookup s.attendance sid with
      | none => simp [finalStatus]
      | some v =>
          have hv : v = "" := by
            have ht' := ht
            simp [truthyAt, hb] at ht'
            exact ht'
          rw [hv]
          simp [finalStatus]
  exact ⟨hlk, filter_length_one_of_lookup (keys_backfill_nodup _ _ hnd) hlk⟩

/-- C1 witness: session with one marked student, roster of two. -/
theorem C1_finalize_roster_witness :
    findClass [⟨"c1", "Math", "t1", ["s1", "s2"]⟩] "c1" =
      some ⟨"c1", "Math", "t1", ["s1", "s2"]⟩ ∧
    (keys [("s1", "present")]).Nodup ∧
    (handleMessage [⟨"c1", "Math", "t1", ["s1", "s2"]⟩]
        ⟨"t1", Role.teacher⟩ (some ⟨"c1", "t0", [("s1", "present")]⟩)
        .done).session = none ∧
    (∀ sid ∈ ["s1", "s2"],
      lookup (backfill [("s1", "present")] ["s1", "s2"]) sid =
        some (finalStatus (lookup [("s1", "present")] sid))) :=
  ⟨by decide, by decide,
   (C1_finalize_roster [⟨"c1", "Math", "t1", ["s1", "s2"]⟩]
     ⟨"t1", Role.teacher⟩ ⟨"c1", "t0", [("s1", "present")]⟩
     ⟨"c1", "Math", "t1", ["s1", "s2"]⟩ rfl (by decide) (by decide)).1,
   fun sid hsid =>
     ((C1_finalize_roster [⟨"c1", "Math", "t1", ["s1", "s2"]⟩]
       ⟨"t1", Role.teacher⟩ ⟨"c1", "t0", [("s1", "present")]⟩
       ⟨"c1", "Math", "t1", ["s1", "s2"]⟩ rfl (by decide)
       (by decide)).2.2.2 sid hsid).1⟩

/-- C3 as stated fails: with no active session, a student sending Mark is
answered with the role-violation error, not the "no active session" error
— the handler checks the role before the session in every case. -/
theorem C3_counterexample :
    (handleMessage [] ⟨"u1", Role.student⟩ none
        (.attendanceMarked "s1" "present")).outputs =
      [.toSender (.error "Forbidden, teacher event only")] ∧
    (handleMessage [] ⟨"u1", Role.student⟩ none
        (.attendanceMarked "s1" "present")).outputs ≠
      [.toSender (.error "No active attendance session")] := by
  decide

/-- C3 (amended): with no active session, every protocol event (Mark,
Summary request, Self-status request, Finalize) is answered by exactly one
error notification unicast to the sender, leaves the session slot at none,
broadcasts nothing and writes nothing to the durable store; the error is
"No active attendance session" when the sender has the event's required
role, and that event's role-violation error otherwise (the role check
comes first). -/
theorem C3_no_session_no_effect (classes : List ClassRoom) (u : WsUser)
    (msg : WsMessage) (hp : requiredRole msg ≠ none) :
    (handleMessage classes u none msg).session = none ∧
    (handleMessage classes u none msg).writes = [] ∧
    (handleMessage classes u none msg).outputs =
      [.toSender (.error
        (if requiredRole msg = some u.role
         then "No active attendance session"
         else roleError msg))] := by
  cases msg with
  | unknown e => exact absurd rfl hp
  | attendanceMarked sid st =>
      cases hr : u.role <;>
        exact ⟨by simp [handleMessage, hr], by simp [handleMessage, hr],
          by simp [handleMessage, hr, requiredRole, roleError]⟩
  | todaySummary =>
      cases hr : u.role <;>
        exact ⟨by simp [handleMessage, hr], by simp [handleMessage, hr],
          by simp [handleMessage, hr, requiredRole, roleError]⟩
  | myAttendance =>
      cases hr : u.role <;>
        exact ⟨by simp [handleMessage, hr], by simp [handleMessage, hr],
          by simp [handleMessage, hr, requiredRole, roleError]⟩
  | done =>
      cases hr : u.role <;>
        exact ⟨by simp [handleMessage, hr], by simp [handleMessage, hr],
          by simp [handleMessage, hr, requiredRole, roleError]⟩

/-- C3 witness: against no active session, a teacher's Finalize gets the
no-active-session error and writes nothing, while a student's Mark gets
that event's role-violation error — both sides of the amended dichotomy,
each unicast to the sender only with no side effect. -/
theorem C3_no_session_no_effect_witness :
    requiredRole .done ≠ none ∧
    requiredRole (.attendanceMarked "s1" "present") ≠ none ∧
    (handleMessage [] ⟨"t1", Role.teacher⟩ none .done).session = none ∧
    (handleMessage [] ⟨"t1", Role.teacher⟩ none .done).writes = [] ∧
    (handleMessage [] ⟨"t1", Role.teacher⟩ none .done).outputs =
      [.toSender (.error "No active attendance session")] ∧
    (handleMessage [] ⟨"u1", Role.student⟩ none
        (.attendanceMarked "s1" "present")).writes = [] ∧
    (handleMessage [] ⟨"u1", Role.student⟩ none
        (.attendanceMarked "s1" "present")).outputs =
      [.toSender (.error "Forbidden, teacher event only")] := by
  refine ⟨by decide, by decide,
    (C3_no_session_no_effect [] ⟨"t1", Role.teacher⟩ .done (by decide)).1,
    (C3_no_session_no_effect [] ⟨"t1", Role.teacher⟩ .done (by decide)).2.1,
    ?_,
    (C3_no_session_no_effect [] ⟨"u1", Role.student⟩
      (.attendanceMarked "s1" "present") (by decide)).2.1, ?_⟩
  · have h := (C3_no_session_no_effect [] ⟨"t1", Role.teacher⟩ .done
      (by decide)).2.2
    simpa [requiredRole] using h
  · have h := (C3_no_session_no_effect [] ⟨"u1", Role.student⟩
      (.attendanceMarked "s1" "present") (by decide)).2.2
    simpa [requiredRole, roleError] using h

/-- C9 as stated fails: the empty string is a string status a teacher can
supply, it is stored verbatim and broadcast, yet at Finalize the falsy
roster check replaces it with "absent" for an enrolled student, so the
entry is not persisted with its stored status. -/
theorem C9_counterexample :
    (handleMessage [⟨"c1", "Math", "t1", ["s1"]⟩] ⟨"t1", Role.teacher⟩
        (some ⟨"c1", "t0", []⟩) (.attendanceMarked "s1" "")).session =
      some ⟨"c1", "t0", [("s1", "")]⟩ ∧
    (handleMessage [⟨"c1", "Math", "t1", ["s1"]⟩] ⟨"t1", Role.teacher⟩
        (some ⟨"c1", "t0", []⟩) (.attendanceMarked "s1" "")).outputs =
      [.toAll (.marked "s1" "")] ∧
    (handleMessage [⟨"c1", "Math", "t1", ["s1"]⟩] ⟨"t1", Role.teacher⟩
        (some ⟨"c1", "t0", [("s1", "")]⟩) .done).writes =
      [⟨"c1", "s1", "absent"⟩] ∧
    (⟨"c1", "s1", ""⟩ : AttendanceRecord) ∉
      (handleMessage [⟨"c1", "Math", "t1", ["s1"]⟩] ⟨"t1", Role.teacher⟩
        (some ⟨"c1", "t0", [("s1", "")]⟩) .done).writes := by
  decide

/-- C9 (amended): Mark validates nothing: any non-empty string status a
teacher supplies is stored verbatim in the map and broadcast; such an
entry that is neither "present" nor "absent" is counted in summarize's
total but in neither bucket, and is persisted verbatim at Finalize.  (An
empty-string status is also stored and broadcast verbatim, but Finalize's
falsy check treats it as unmarked and overwrites it with "absent" for an
enrolled student.) -/
theorem C9_unvalidated_status (classes : List ClassRoom) (u : WsUser)
    (s : Session) (c : ClassRoom) (sid st : String)
    (hrole : u.role = Role.teacher)
    (hfind : findClass classes s.classId = some c)
    (hne : st ≠ "") (hp : st ≠ "present") (ha : st ≠ "absent") :
    (handleMessage classes u (some s) (.attendanceMarked sid st)).session =
      some { s with attendance := upsert s.attendance sid st } ∧
    (handleMessage classes u (some s) (.attendanceMarked sid st)).outputs =
      [.toAll (.marked sid st)] ∧
    lookup (upsert s.attendance sid st) sid = some st ∧
    countPresent (upsert s.attendance sid st)
        + countAbsent (upsert s.attendance sid st)
      < (values (upsert s.attendance sid st)).length ∧
    (⟨s.classId, sid, st⟩ : AttendanceRecord) ∈
      (handleMessage classes u
        (some { s with attendance := upsert s.attendance sid st })
        .done).writes := by
  have hlk : lookup (upsert s.attendance sid st) sid = some st := by
    rw [lookup_upsert]
    simp
  refine ⟨by simp [handleMessage, hrole], by simp [handleMessage, hrole],
    hlk, ?_, ?_⟩
  · have := count_present_absent_lt_of_bad
      (values (upsert s.attendance sid st)) st
      (mem_values_of_lookup hlk) hp ha
    simpa [countPresent, countAbsent] using this
  · have hw : (handleMessage classes u
        (some { s with attendance := upsert s.attendance sid st })
        .done).writes =
          (backfill (upsert s.attendance sid st) c.studentIds).map
            (fun p => ⟨s.classId, p.1, p.2⟩) := by
      simp [handleMessage, hrole, hfind]
    rw [hw]
    have ht : truthyAt (upsert s.attendance sid st) sid = true := by
      simp [truthyAt, hlk, hne]
    have hlb : lookup (backfill (upsert s.attendance sid st) c.studentIds)
        sid = some st := by
      rw [lookup_backfill, if_neg (by simp [ht])]
      exact hlk
    exact List.mem_map_of_mem _ (mem_of_lookup hlb)

/-- C9 witness: status "late" on an enrolled student survives to the
durable write verbatim. -/
theorem C9_unvalidated_status_witness :
    (("late" : String) ≠ "" ∧ ("late" : String) ≠ "present" ∧
      ("late" : String) ≠ "absent") ∧
    lookup (upsert [] "s1" "late") "s1" = some "late" ∧
    countPresent (upsert [] "s1" "late")
        + countAbsent (upsert [] "s1" "late")
      < (values (upsert [] "s1" "late")).length ∧
    (⟨"c1", "s1", "late"⟩ : AttendanceRecord) ∈
      (handleMessage [⟨"c1", "Math", "t1", ["s1"]⟩] ⟨"t1", Role.teacher⟩
        (some ⟨"c1", "t0", upsert [] "s1" "late"⟩) .done).writes :=
  ⟨⟨by decide, by decide, by decide⟩,
   (C9_unvalidated_status [⟨"c1", "Math", "t1", ["s1"]⟩]
     ⟨"t1", Role.teacher⟩ ⟨"c1", "t0", []⟩ ⟨"c1", "Math", "t1", ["s1"]⟩
     "s1" "late" rfl (by decide) (by decide) (by decide)
     (by decide)).2.2.1,
   (C9_unvalidated_status [⟨"c1", "Math", "t1", ["s1"]⟩]
     ⟨"t1", Role.teacher⟩ ⟨"c1", "t0", []⟩ ⟨"c1", "Math", "t1", ["s1"]⟩
     "s1" "late" rfl (by decide) (by decide) (by decide)
     (by decide)).2.2.2.1,
   (C9_unvalidated_status [⟨"c1", "Math", "t1", ["s1"]⟩]
     ⟨"t1", Role.teacher⟩ ⟨"c1", "t0", []⟩ ⟨"c1", "Math", "t1", ["s1"]⟩
     "s1" "late" rfl (by decide) (by decide) (by decide)
     (by decide)).2.2.2.2⟩

end LiveAttendance
